import Mathlib

/-!
Verification of the job-scheduler repository (single-machine weighted-completion-time
scheduling, three MIP formulations) against its natural-language specification.

The Python source is shallowly embedded:
* dictionaries built by `ProdPlan.list_to_dict` (model_1.py / model_3.py) and
  `ProdPlan.make_data` (model_4.py) become association lists with Python-dict
  update semantics (updating an existing key keeps its position, new keys append);
* `ProdPlan.__init__`, which computes `big_m = max(dict_r.values()) + sum(dict_p.values())`
  and raises Python `ValueError` when `max` is applied to an empty sequence, becomes
  an `Except`-valued function;
* each formulation's constraint system (model_1.py, model_3.py, model_4.py
  `ProdPlan.modeling`) becomes a feasibility predicate over an assignment of the
  decision variables, and the objective becomes an integer-valued function;
* `ProdPlan.get_job_order` (Python `sorted`, a stable sort) becomes a stable
  insertion sort by key.
-/

/-- Python runtime errors that the embedded code can raise:
`ValueError` (from `max()` on an empty sequence) and `KeyError` (from indexing a
`dict` of decision variables with an absent key `(job, slot)`). -/
inductive PyErr where
  | valueError : PyErr
  | keyError : Nat → Int → PyErr
  deriving DecidableEq, Repr

/-- Python `zip` over four lists: truncates to the shortest input. Embeds the
`for v_j, v_p, v_w, v_r in zip(list_j, list_p, list_w, list_r)` loops of
`ProdPlan.list_to_dict` (model_1.py lines 64-76) and `ProdPlan.make_data`
(model_4.py lines 42-54). -/
def zip4 : List Nat → List Nat → List Nat → List Nat → List (Nat × Nat × Nat × Nat)
  | j :: js, p :: ps, w :: ws, r :: rs => (j, p, w, r) :: zip4 js ps ws rs
  | _, _, _, _ => []

/-- A Python `dict` with `Nat` keys and values, embedded as an association list in
insertion order (Python 3.7+ dicts preserve insertion order; assigning to an
existing key overwrites in place, a new key appends). -/
def pyDictInsert (d : List (Nat × Nat)) (k v : Nat) : List (Nat × Nat) :=
  if d.any (fun e => e.1 = k) then
    d.map (fun e => if e.1 = k then (k, v) else e)
  else
    d ++ [(k, v)]

/-- `dict.values()`: the values in insertion order. -/
def pyValues (d : List (Nat × Nat)) : List Nat := d.map (fun e => e.2)

/-- `ProdPlan.list_to_dict` (model_1.py lines 64-76, identical in model_3.py):
builds the three attribute dictionaries `dict_p`, `dict_w`, `dict_r` keyed by job id
by iterating over `zip(list_j, list_p, list_w, list_r)`. No validation is performed.
-/
def list_to_dict (list_j list_p list_w list_r : List Nat) :
    List (Nat × Nat) × List (Nat × Nat) × List (Nat × Nat) :=
  (zip4 list_j list_p list_w list_r).foldl
    (fun acc q =>
      (pyDictInsert acc.1 q.1 q.2.1,
       pyDictInsert acc.2.1 q.1 q.2.2.1,
       pyDictInsert acc.2.2 q.1 q.2.2.2))
    ([], [], [])

/-- `ProdPlan.make_data` (model_4.py lines 42-54): textually the same dictionary
construction as `list_to_dict`, with the loop variables renamed. -/
def make_data (jobs time_p weights time_r : List Nat) :
    List (Nat × Nat) × List (Nat × Nat) × List (Nat × Nat) :=
  (zip4 jobs time_p weights time_r).foldl
    (fun acc q =>
      (pyDictInsert acc.1 q.1 q.2.1,
       pyDictInsert acc.2.1 q.1 q.2.2.1,
       pyDictInsert acc.2.2 q.1 q.2.2.2))
    ([], [], [])

/-- `ProdPlan.__init__` (model_1.py lines 78-97) after `list_to_dict`: computes
`self.big_m = max(self.dict_r.values()) + sum(self.dict_p.values())` (line 87).
Python `max` raises `ValueError` on an empty sequence; there is no other check,
so this is the only failure the constructor can produce.  Returns the computed
big-M value. -/
def prodPlanInit (list_j list_p list_w list_r : List Nat) : Except PyErr Nat :=
  let dicts := list_to_dict list_j list_p list_w list_r
  match (pyValues dicts.2.2).max? with
  | none => Except.error PyErr.valueError
  | some m => Except.ok (m + (pyValues dicts.1).sum)

/-- Maximum of a list of naturals (value of Python `max` on a nonempty list). -/
def listMax (l : List Nat) : Nat := l.foldl max 0

/-- A constructed problem instance as consumed by `ProdPlan.modeling`: the job-id
list `self.jobs` together with the attribute dictionaries `self.dict_p`,
`self.dict_w`, `self.dict_r`.  The dictionaries are embedded as total functions on
job ids; the modeling code only ever looks up ids drawn from `self.jobs`, for which
the dictionaries built by `list_to_dict` from equal-length lists are defined. -/
structure Inst where
  jobs : List Nat
  p : Nat → Nat
  w : Nat → Nat
  r : Nat → Nat

/-- `self.big_m = max(self.dict_r.values()) + sum(self.dict_p.values())`
(model_1.py line 87).  The dictionary values, in insertion order, are the
attributes of the jobs in `self.jobs` order.  For the nonempty instances the
models are built from, `listMax` agrees with Python `max`. -/
def big_m (inst : Inst) : Nat :=
  listMax (inst.jobs.map inst.r) + (inst.jobs.map inst.p).sum

/-- An assignment of the disjunctive/order models' decision variables
(`self.var_x`, `self.var_s`, `self.var_c` of model_1.py / model_4.py):
binary precedence indicators and integer start/completion times. -/
structure Sched where
  x : Nat → Nat → Bool
  s : Nat → Nat
  c : Nat → Nat

/-- The integer value of a binary variable `x[j,k]`. -/
def xv (σ : Sched) (j k : Nat) : Int := if σ.x j k then 1 else 0

/-- Constraint 3 of model_1.py (lines 130-132), generated for every ordered pair
including `j = k`: `var_s[k] + big_m * (1 - var_x[j,k]) >= var_c[j]`. -/
def bigMCons (inst : Inst) (σ : Sched) (j k : Nat) : Prop :=
  (σ.c j : Int) ≤ (σ.s k : Int) + (big_m inst : Int) * (1 - xv σ j k)

/-- Feasibility for the disjunctive formulation (model_1.py `ProdPlan.modeling`,
lines 99-135): completion = start + processing, release dates, the big-M
disjunctive constraint for every ordered pair (including the diagonal), and
mutual exclusivity for distinct pairs. -/
def model1Feasible (inst : Inst) (σ : Sched) : Prop :=
  (∀ j ∈ inst.jobs, σ.c j = σ.s j + inst.p j) ∧
  (∀ j ∈ inst.jobs, inst.r j ≤ σ.s j) ∧
  (∀ j ∈ inst.jobs, ∀ k ∈ inst.jobs, bigMCons inst σ j k) ∧
  (∀ j ∈ inst.jobs, ∀ k ∈ inst.jobs, j ≠ k → xv σ j k + xv σ k j = 1)

/-- The objective of model_1.py (line 137) and model_4.py (line 103):
`lpSum(dict_w[j] * var_c[j] for j in jobs)`, the weighted sum of completions. -/
def objWC (inst : Inst) (σ : Sched) : Int :=
  (inst.jobs.map (fun j => (inst.w j : Int) * (σ.c j : Int))).sum

/-- Constraint 3 of model_4.py (lines 86-93), generated for every ordered pair:
`var_s[j] >= dict_r[j] * var_x[k,j] + lpSum(dict_p[j] * (var_x[i,j] - var_x[i,k]) for i in jobs)`.
Note the coefficient is `dict_p[j]` in the code (its docstring, line 64, says `p[i]`). -/
def orderCons (inst : Inst) (σ : Sched) (j k : Nat) : Prop :=
  (inst.r j : Int) * xv σ k j
      + (inst.jobs.map (fun i => (inst.p j : Int) * (xv σ i j - xv σ i k))).sum
    ≤ (σ.s j : Int)

/-- Feasibility for the order/transitivity formulation (model_4.py
`ProdPlan.modeling`, lines 56-104): completion, release, the precedence-sum
constraint for every ordered pair, mutual exclusivity for distinct pairs, and the
triple constraint `var_x[j,k] + var_x[k,i] + var_x[i,j] <= 1` for every triple
(including repeated indices, as the code's loops do). -/
def model4Feasible (inst : Inst) (σ : Sched) : Prop :=
  (∀ j ∈ inst.jobs, σ.c j = σ.s j + inst.p j) ∧
  (∀ j ∈ inst.jobs, inst.r j ≤ σ.s j) ∧
  (∀ j ∈ inst.jobs, ∀ k ∈ inst.jobs, orderCons inst σ j k) ∧
  (∀ j ∈ inst.jobs, ∀ k ∈ inst.jobs, j ≠ k → xv σ j k + xv σ k j = 1) ∧
  (∀ j ∈ inst.jobs, ∀ k ∈ inst.jobs, ∀ i ∈ inst.jobs,
    xv σ j k + xv σ k i + xv σ i j ≤ 1)

/-- Python `range(a, b)` over integers, as a list. -/
def pyRangeZ (a b : Int) : List Int :=
  (List.range (b - a).toNat).map (fun (i : Nat) => a + (i : Int))

/-- `self.times = list(range(1, max(dict_r.values()) + sum(dict_p.values())))`
(model_3.py lines 87-89): the discretized slots `1 .. big_m - 1`. -/
def times3 (inst : Inst) : List Int := pyRangeZ 1 (big_m inst)

/-- Python `max(self.times)`.  The slots are all positive, so the fold from `0`
agrees with Python `max` on any nonempty slot list; the empty slot list, where
Python raises `ValueError`, is reported separately by `buildModel3`. -/
def maxTimes (inst : Inst) : Int :=
  (times3 inst).foldl max 0

/-- The start-slot window of constraint 1 of model_3.py (lines 120-131):
`range(dict_r[j], max(times) - dict_p[j] + 1)`. -/
def window3 (inst : Inst) (j : Nat) : List Int :=
  pyRangeZ (inst.r j : Int) (maxTimes inst - (inst.p j : Int) + 1)

/-- The window the specification describes for constraint 1: all slots `t` with
`r[j] <= t <= horizon - p[j]` where `horizon = max(r) + sum(p)`.
Modelled from the spec, for comparison with `window3`. -/
def specWindow3 (inst : Inst) (j : Nat) : List Int :=
  pyRangeZ (inst.r j : Int) ((big_m inst : Int) - (inst.p j : Int) + 1)

/-- Integer value of the binary start variable `z[j,t]` of model_3.py. -/
def zI (z : Nat → Int → Bool) (j : Nat) (t : Int) : Int := if z j t then 1 else 0

/-- Feasibility for the time-indexed formulation (model_3.py `ProdPlan.modeling`,
lines 99-161): each job's window sums to one (constraint 1, lines 120-131), and
for every slot `t` at most one job is in process
(constraint 2, lines 134-148: starts in `range(max(1, t - p_j + 1), t + 1)`). -/
def model3Feasible (inst : Inst) (z : Nat → Int → Bool) : Prop :=
  (∀ j ∈ inst.jobs, ((window3 inst j).map (fun t => zI z j t)).sum = 1) ∧
  (∀ t ∈ times3 inst,
    (inst.jobs.map (fun j =>
      ((pyRangeZ (max 1 (t - (inst.p j : Int) + 1)) (t + 1)).map
        (fun s => zI z j s)).sum)).sum ≤ 1)

/-- The decoded start of job `j` in the time-indexed model:
`sum(t * z[j,t] for t in times)` (model_3.py lines 196-205 and 262-269). -/
def start3 (inst : Inst) (z : Nat → Int → Bool) (j : Nat) : Int :=
  ((times3 inst).map (fun t => t * zI z j t)).sum

/-- The objective of model_3.py (lines 151-160):
`lpSum(dict_w[j] * (lpSum(t * z[j,t] for t in times) * dict_p[j]) for j in jobs)`. -/
def obj3 (inst : Inst) (z : Nat → Int → Bool) : Int :=
  (inst.jobs.map (fun j => (inst.w j : Int) * (start3 inst z j * (inst.p j : Int)))).sum

/-- An assignment of the `z` variables that selects exactly one start slot per
job: for every job, exactly one slot of `times` carries a 1. -/
def SelectsOne (inst : Inst) (z : Nat → Int → Bool) : Prop :=
  ∀ j ∈ inst.jobs, ((times3 inst).map (fun t => zI z j t)).sum = 1

/-- The weighted sum of completion times `sum_j w[j] * C[j]` of the claim, with
`C[j]` the decoded start plus processing time. -/
def wcSum (inst : Inst) (z : Nat → Int → Bool) : Int :=
  (inst.jobs.map (fun j =>
    (inst.w j : Int) * (start3 inst z j + (inst.p j : Int)))).sum

/-- `v` is the optimal value of objective `f` over the feasible set `P`:
attained by some feasible point and a lower bound on all of them. -/
def IsOptimalValue {α : Type} (P : α → Prop) (f : α → Int) (v : Int) : Prop :=
  (∃ a, P a ∧ f a = v) ∧ ∀ a, P a → v ≤ f a

/-- Insertion step of a stable sort by key: `a` is placed after every earlier
element whose key is at most `key a` and before the rest, which is exactly where
Python's stable `sorted(..., key=...)` puts an element relative to the elements
that preceded it. -/
def pyInsertByKey {α : Type} (key : α → Nat) (a : α) : List α → List α
  | [] => [a]
  | b :: l => if key b < key a then b :: pyInsertByKey key a l else a :: b :: l

/-- Python `sorted(xs, key=...)`: a stable sort by key, embedded as insertion
sort (same output as Python's stable mergesort: sorted by key, equal keys in
input order). -/
def pySortedBy {α : Type} (key : α → Nat) : List α → List α
  | [] => []
  | a :: l => pyInsertByKey key a (pySortedBy key l)

/-- `ProdPlan.get_job_order` of model_1.py (lines 210-216):
`sorted(self.jobs, key=lambda x: value(var_s[x]))`, given the solved start
values. -/
def get_job_order1 (jobs : List Nat) (sval : Nat → Nat) : List Nat :=
  pySortedBy sval jobs

/-- `ProdPlan.get_job_order` of model_3.py (lines 253-276): builds the list of
two-element lists `[j, decoded_start_j]` for `j` in `self.jobs` and sorts it by
the second component (`key=lambda x: x[1]`).  The returned elements are
id/start pairs, not bare job ids. -/
def get_job_order3 (jobs : List Nat) (sval : Nat → Nat) : List (List Nat) :=
  pySortedBy (fun a => a.getD 1 0) (jobs.map (fun j => [j, sval j]))

/-- One job's slice of constraint 1 of model_3.py: the first slot `t` of the
job's window whose variable `z[j,t]` was never created, i.e. `t` is outside
`self.times` — indexing `self.var_z[j, t]` there raises `KeyError`. -/
def checkJob (inst : Inst) (j : Nat) : Option (Nat × Int) :=
  ((window3 inst j).find? (fun t => ¬ (times3 inst).contains t)).map (fun t => (j, t))

/-- `ProdPlan.modeling` of model_3.py as far as it can fail (lines 108-161):
the variables `z[j,t]` exist exactly for `j` in `self.jobs` and `t` in
`self.times`; constraint 1 (lines 120-131) evaluates `max(self.times)` — a
`ValueError` when the slot list is empty — and then indexes `self.var_z[j, t]`
for every `t` in the job's window, a `KeyError` at the first `t` outside
`self.times`.  Constraint 2 and the objective only index slots inside
`self.times` and cannot fail.  On success, returns each job's window. -/
def buildModel3 (inst : Inst) : Except PyErr (List (Nat × List Int)) :=
  if inst.jobs = [] then Except.ok []
  else if times3 inst = [] then Except.error PyErr.valueError
  else
    match inst.jobs.findSome? (checkJob inst) with
    | some jt => Except.error (PyErr.keyError jt.1 jt.2)
    | none => Except.ok (inst.jobs.map (fun j => (j, window3 inst j)))

/-- The (formulation, job-count) pairs of the comparison loop in src/exp.py
(lines 13-21): for each `i` in `range(1, 11)`, formulations 1, 2, 3 in order. -/
def expPairs : List (Nat × Nat) :=
  (List.range' 1 10).flatMap (fun i => [(1, i), (2, i), (3, i)])

/-- The comparison loop of src/exp.py (lines 13-21): each `model_k.main(i)` is
run in order and its result row appended (`writer.writerow`).  There is no
`try`/`except` in the loop, so a call that raises stops the loop: the rows
written so far are kept and the exception is returned; no further pair is run.
`run` abstracts the out-of-scope solver-backed `main` functions. -/
def expRows {ε α : Type} (run : Nat → Nat → Except ε α) :
    List (Nat × Nat) → List (Nat × Nat × α) × Option ε
  | [] => ([], none)
  | pr :: rest =>
    match run pr.1 pr.2 with
    | Except.error e => ([], some e)
    | Except.ok a =>
      let tail := expRows run rest
      ((pr.1, pr.2, a) :: tail.1, tail.2)

instance (inst : Inst) (σ : Sched) (j k : Nat) : Decidable (bigMCons inst σ j k) := by
  unfold bigMCons
  exact inferInstance

instance (inst : Inst) (σ : Sched) : Decidable (model1Feasible inst σ) := by
  unfold model1Feasible bigMCons
  exact inferInstance

instance (inst : Inst) (σ : Sched) : Decidable (model4Feasible inst σ) := by
  unfold model4Feasible orderCons
  exact inferInstance

instance (inst : Inst) (z : Nat → Int → Bool) : Decidable (model3Feasible inst z) := by
  unfold model3Feasible
  exact inferInstance

instance (inst : Inst) (z : Nat → Int → Bool) : Decidable (SelectsOne inst z) := by
  unfold SelectsOne
  exact inferInstance

lemma mem_pyInsertByKey {α : Type} (key : α → Nat) (a y : α) (l : List α) :
    y ∈ pyInsertByKey key a l ↔ y = a ∨ y ∈ l := by
  induction l with
  | nil => simp [pyInsertByKey]
  | cons b l ih =>
    by_cases hb : key b < key a
    · simp only [pyInsertByKey, if_pos hb, List.mem_cons, ih]
      tauto
    · simp only [pyInsertByKey, if_neg hb, List.mem_cons]

lemma perm_pyInsertByKey {α : Type} (key : α → Nat) (a : α) (l : List α) :
    (pyInsertByKey key a l).Perm (a :: l) := by
  induction l with
  | nil => simp [pyInsertByKey]
  | cons b l ih =>
    by_cases hb : key b < key a
    · simp only [pyInsertByKey, if_pos hb]
      exact (ih.cons b).trans (List.Perm.swap a b l)
    · simp [pyInsertByKey, if_neg hb]

lemma perm_pySortedBy {α : Type} (key : α → Nat) (l : List α) :
    (pySortedBy key l).Perm l := by
  induction l with
  | nil => exact List.Perm.refl []
  | cons a l ih =>
    exact (perm_pyInsertByKey key a (pySortedBy key l)).trans (ih.cons a)

lemma pairwise_pyInsertByKey {α : Type} (key : α → Nat) (Q : α → α → Prop)
    (a : α) (l : List α) (hl : l.Pairwise (fun x y => key x < key y ∨ (key x = key y ∧ Q x y)))
    (ha : ∀ b ∈ l, Q a b) :
    (pyInsertByKey key a l).Pairwise (fun x y => key x < key y ∨ (key x = key y ∧ Q x y)) := by
  induction l with
  | nil => simp [pyInsertByKey]
  | cons b l ih =>
    rcases List.pairwise_cons.mp hl with ⟨hbl, hl'⟩
    by_cases hb : key b < key a
    · simp only [pyInsertByKey, if_pos hb]
      refine List.pairwise_cons.mpr ⟨?_, ih hl' (fun c hc => ha c (List.mem_cons_of_mem b hc))⟩
      intro y hy
      rcases (mem_pyInsertByKey key a y l).mp hy with rfl | hy'
      · exact Or.inl hb
      · exact hbl y hy'
    · simp only [pyInsertByKey, if_neg hb]
      refine List.pairwise_cons.mpr ⟨?_, hl⟩
      intro y hy
      rcases List.mem_cons.mp hy with rfl | hy'
      · rcases Nat.lt_or_ge (key a) (key y) with h | h
        · exact Or.inl h
        · exact Or.inr ⟨Nat.le_antisymm (Nat.le_of_not_lt hb) h, ha _ (List.mem_cons_self _ _)⟩
      · rcases hbl y hy' with h | h
        · rcases Nat.lt_or_ge (key a) (key y) with h2 | h2
          · exact Or.inl h2
          · exact absurd (Nat.lt_of_lt_of_le h (Nat.le_trans h2 (Nat.le_of_not_lt hb)))
              (Nat.lt_irrefl _)
        · rcases Nat.lt_or_ge (key a) (key y) with h2 | h2
          · exact Or.inl h2
          · have hay : key a = key y := Nat.le_antisymm
              (Nat.le_trans (Nat.le_of_not_lt hb) (Nat.le_of_eq h.1)) h2
            exact Or.inr ⟨hay, ha y (List.mem_cons_of_mem b hy')⟩

lemma pairwise_pySortedBy {α : Type} (key : α → Nat) (Q : α → α → Prop)
    (l : List α) (hl : l.Pairwise Q) :
    (pySortedBy key l).Pairwise (fun x y => key x < key y ∨ (key x = key y ∧ Q x y)) := by
  induction l with
  | nil => simp [pySortedBy]
  | cons a l ih =>
    rcases List.pairwise_cons.mp hl with ⟨hal, hl'⟩
    refine pairwise_pyInsertByKey key Q a (pySortedBy key l) (ih hl') ?_
    intro b hb
    exact hal b ((perm_pySortedBy key l).mem_iff.mp hb)

lemma pyInsertByKey_map {α β : Type} (f : α → β) (key1 : α → Nat) (key2 : β → Nat)
    (hf : ∀ a, key2 (f a) = key1 a) (a : α) (l : List α) :
    pyInsertByKey key2 (f a) (l.map f) = (pyInsertByKey key1 a l).map f := by
  induction l with
  | nil => simp [pyInsertByKey]
  | cons b l ih =>
    simp only [List.map_cons, pyInsertByKey, hf]
    by_cases hb : key1 b < key1 a
    · simp [if_pos hb, ih]
    · simp [if_neg hb]

lemma pySortedBy_map {α β : Type} (f : α → β) (key1 : α → Nat) (key2 : β → Nat)
    (hf : ∀ a, key2 (f a) = key1 a) (l : List α) :
    pySortedBy key2 (l.map f) = (pySortedBy key1 l).map f := by
  induction l with
  | nil => simp [pySortedBy]
  | cons a l ih =>
    simp only [List.map_cons, pySortedBy, ih]
    exact pyInsertByKey_map f key1 key2 hf a (pySortedBy key1 l)

lemma zip4_components (lj lp lw lr : List Nat) :
    ((zip4 lj lp lw lr).map (fun q => (q.1, q.2.1)) =
        (lj.take ((lj.length.min lp.length).min (lw.length.min lr.length))).zip
          (lp.take ((lj.length.min lp.length).min (lw.length.min lr.length)))) ∧
    ((zip4 lj lp lw lr).map (fun q => (q.1, q.2.2.1)) =
        (lj.take ((lj.length.min lp.length).min (lw.length.min lr.length))).zip
          (lw.take ((lj.length.min lp.length).min (lw.length.min lr.length)))) ∧
    ((zip4 lj lp lw lr).map (fun q => (q.1, q.2.2.2)) =
        (lj.take ((lj.length.min lp.length).min (lw.length.min lr.length))).zip
          (lr.take ((lj.length.min lp.length).min (lw.length.min lr.length)))) ∧
    ((zip4 lj lp lw lr).map (fun q => q.1) =
        lj.take ((lj.length.min lp.length).min (lw.length.min lr.length))) := by
  induction lj generalizing lp lw lr with
  | nil => simp [zip4]
  | cons j js ih =>
    cases lp with
    | nil => simp [zip4]
    | cons p ps =>
      cases lw with
      | nil => simp [zip4]
      | cons w ws =>
        cases lr with
        | nil => simp [zip4]
        | cons r rs =>
          rcases ih ps ws rs with ⟨h1, h2, h3, h4⟩
          simp only [zip4, List.map_cons, List.length_cons, Nat.succ_min_succ,
            List.take_succ_cons, List.zip_cons_cons, h1, h2, h3, h4, and_self]


lemma pyDictInsert_fresh (d : List (Nat × Nat)) (k v : Nat)
    (hd : ∀ e ∈ d, e.1 ≠ k) : pyDictInsert d k v = d ++ [(k, v)] := by
  unfold pyDictInsert
  rw [if_neg]
  simp only [List.any_eq_true, decide_eq_true_eq, not_exists]
  intro e he
  exact absurd he.2 (hd e he.1)

lemma foldl_dicts_fresh (zs : List (Nat × Nat × Nat × Nat)) :
    ∀ (dp dw dr : List (Nat × Nat)),
    (zs.map (fun q => q.1)).Nodup →
    (∀ q ∈ zs, ∀ e ∈ dp, e.1 ≠ q.1) →
    (∀ q ∈ zs, ∀ e ∈ dw, e.1 ≠ q.1) →
    (∀ q ∈ zs, ∀ e ∈ dr, e.1 ≠ q.1) →
    zs.foldl
      (fun acc q =>
        (pyDictInsert acc.1 q.1 q.2.1,
         pyDictInsert acc.2.1 q.1 q.2.2.1,
         pyDictInsert acc.2.2 q.1 q.2.2.2))
      (dp, dw, dr) =
      (dp ++ zs.map (fun q => (q.1, q.2.1)),
       dw ++ zs.map (fun q => (q.1, q.2.2.1)),
       dr ++ zs.map (fun q => (q.1, q.2.2.2))) := by
  induction zs with
  | nil => intro dp dw dr _ _ _ _; simp
  | cons q zs ih =>
    intro dp dw dr hnd hp hw hr
    have hq1 : q.1 ∉ zs.map (fun q2 => q2.1) := (List.nodup_cons.mp hnd).1
    have hkeep : ∀ (d : List (Nat × Nat)) (v : Nat),
        (∀ q2 ∈ q :: zs, ∀ e ∈ d, e.1 ≠ q2.1) →
        ∀ q2 ∈ zs, ∀ e ∈ d ++ [(q.1, v)], e.1 ≠ q2.1 := by
      intro d v hd q2 hq2 e he
      rcases List.mem_append.mp he with he' | he'
      · exact hd q2 (List.mem_cons_of_mem q hq2) e he'
      · have : e = (q.1, v) := by simpa using he'
        subst this
        intro hk
        exact hq1 (hk ▸ List.mem_map_of_mem (fun q2 => q2.1) hq2)
    rw [List.foldl_cons]
    have hself : ∀ (d : List (Nat × Nat)),
        (∀ q2 ∈ q :: zs, ∀ e ∈ d, e.1 ≠ q2.1) → ∀ e ∈ d, e.1 ≠ q.1 := by
      intro d hd e he
      exact hd q (List.mem_cons_self q zs) e he
    simp only [pyDictInsert_fresh dp q.1 q.2.1 (hself dp hp),
      pyDictInsert_fresh dw q.1 q.2.2.1 (hself dw hw),
      pyDictInsert_fresh dr q.1 q.2.2.2 (hself dr hr)]
    rw [ih (dp ++ [(q.1, q.2.1)]) (dw ++ [(q.1, q.2.2.1)]) (dr ++ [(q.1, q.2.2.2)])
      (List.nodup_cons.mp hnd).2 (hkeep dp q.2.1 hp) (hkeep dw q.2.2.1 hw)
      (hkeep dr q.2.2.2 hr)]
    simp [List.append_assoc]

lemma list_to_dict_eq_zip (lj lp lw lr : List Nat)
    (hnd : (lj.take ((lj.length.min lp.length).min (lw.length.min lr.length))).Nodup) :
    list_to_dict lj lp lw lr =
      ((lj.take ((lj.length.min lp.length).min (lw.length.min lr.length))).zip
         (lp.take ((lj.length.min lp.length).min (lw.length.min lr.length))),
       (lj.take ((lj.length.min lp.length).min (lw.length.min lr.length))).zip
         (lw.take ((lj.length.min lp.length).min (lw.length.min lr.length))),
       (lj.take ((lj.length.min lp.length).min (lw.length.min lr.length))).zip
         (lr.take ((lj.length.min lp.length).min (lw.length.min lr.length)))) := by
  rcases zip4_components lj lp lw lr with ⟨h1, h2, h3, h4⟩
  unfold list_to_dict
  rw [foldl_dicts_fresh (zip4 lj lp lw lr) [] [] [] (h4 ▸ hnd)
    (by intro q hq e he; cases he) (by intro q hq e he; cases he)
    (by intro q hq e he; cases he)]
  simp [h1, h2, h3]

lemma max?_eq_listMax (l : List Nat) (h : l ≠ []) : l.max? = some (listMax l) := by
  cases l with
  | nil => exact absurd rfl h
  | cons a as =>
    show some (as.foldl max a) = some ((a :: as).foldl max 0)
    rw [List.foldl_cons]
    have h0 : max 0 a = a := by omega
    rw [h0]

lemma zip4_eq_nil_iff (lj lp lw lr : List Nat) :
    zip4 lj lp lw lr = [] ↔ lj = [] ∨ lp = [] ∨ lw = [] ∨ lr = [] := by
  cases lj <;> cases lp <;> cases lw <;> cases lr <;> simp [zip4]

lemma pyDictInsert_ne_nil (d : List (Nat × Nat)) (k v : Nat) :
    pyDictInsert d k v ≠ [] := by
  unfold pyDictInsert
  by_cases hany : d.any (fun e => e.1 = k)
  · rw [if_pos hany]
    cases d with
    | nil => simp at hany
    | cons e d => simp
  · rw [if_neg hany]
    simp

lemma foldl_dicts_third_ne_nil (zs : List (Nat × Nat × Nat × Nat)) :
    ∀ acc : List (Nat × Nat) × List (Nat × Nat) × List (Nat × Nat),
    acc.2.2 ≠ [] ∨ zs ≠ [] →
    (zs.foldl
      (fun acc q =>
        (pyDictInsert acc.1 q.1 q.2.1,
         pyDictInsert acc.2.1 q.1 q.2.2.1,
         pyDictInsert acc.2.2 q.1 q.2.2.2))
      acc).2.2 ≠ [] := by
  induction zs with
  | nil =>
    intro acc h
    rcases h with h | h
    · exact h
    · exact absurd rfl h
  | cons q zs ih =>
    intro acc _
    rw [List.foldl_cons]
    exact ih _ (Or.inl (pyDictInsert_ne_nil _ _ _))

lemma mem_pyRangeZ (a b t : Int) : t ∈ pyRangeZ a b ↔ a ≤ t ∧ t < b := by
  simp only [pyRangeZ, List.mem_map, List.mem_range]
  constructor
  · rintro ⟨i, hi, rfl⟩
    omega
  · rintro ⟨h1, h2⟩
    exact ⟨(t - a).toNat, by omega, by omega⟩

lemma pyRangeZ_eq_nil_iff (a b : Int) : pyRangeZ a b = [] ↔ b ≤ a := by
  simp only [pyRangeZ, List.map_eq_nil_iff, List.range_eq_nil]
  omega

lemma foldl_max_mapRange (n : Nat) (a init : Int) :
    ((List.range n).map (fun (i : Nat) => a + (i : Int))).foldl max init =
      if n = 0 then init else max init (a + n - 1) := by
  induction n with
  | zero => simp
  | succ n ih =>
    rw [List.range_succ, List.map_append, List.foldl_append, ih]
    simp only [List.map_cons, List.map_nil, List.foldl_cons, List.foldl_nil,
      Nat.succ_ne_zero, if_false]
    split
    · push_cast
      omega
    · push_cast
      omega

lemma maxTimes_eq (inst : Inst) (h : 2 ≤ big_m inst) :
    maxTimes inst = (big_m inst : Int) - 1 := by
  unfold maxTimes times3 pyRangeZ
  rw [foldl_max_mapRange, if_neg (by omega)]
  omega

lemma window3_eq (inst : Inst) (j : Nat) (h : 2 ≤ big_m inst) :
    window3 inst j = pyRangeZ (inst.r j : Int) ((big_m inst : Int) - (inst.p j : Int)) := by
  unfold window3
  rw [maxTimes_eq inst h]
  congr 1
  ring

/-- C10: with unequal-length attribute sequences, the constructed dictionaries
hold exactly the first `min`-of-the-lengths entries of each sequence — Python
`zip` truncation — and the surplus entries are dropped; `list_to_dict` and
`make_data` are total, so no error is raised.  (Job ids are unique by the data
model, hence the `Nodup` hypothesis on the kept prefix of ids.) -/
theorem C10_zip_truncation (lj lp lw lr : List Nat)
    (hnd : (lj.take ((lj.length.min lp.length).min (lw.length.min lr.length))).Nodup) :
    list_to_dict lj lp lw lr =
      ((lj.take ((lj.length.min lp.length).min (lw.length.min lr.length))).zip
         (lp.take ((lj.length.min lp.length).min (lw.length.min lr.length))),
       (lj.take ((lj.length.min lp.length).min (lw.length.min lr.length))).zip
         (lw.take ((lj.length.min lp.length).min (lw.length.min lr.length))),
       (lj.take ((lj.length.min lp.length).min (lw.length.min lr.length))).zip
         (lr.take ((lj.length.min lp.length).min (lw.length.min lr.length)))) ∧
    make_data lj lp lw lr =
      ((lj.take ((lj.length.min lp.length).min (lw.length.min lr.length))).zip
         (lp.take ((lj.length.min lp.length).min (lw.length.min lr.length))),
       (lj.take ((lj.length.min lp.length).min (lw.length.min lr.length))).zip
         (lw.take ((lj.length.min lp.length).min (lw.length.min lr.length))),
       (lj.take ((lj.length.min lp.length).min (lw.length.min lr.length))).zip
         (lr.take ((lj.length.min lp.length).min (lw.length.min lr.length)))) := by
  have h := list_to_dict_eq_zip lj lp lw lr hnd
  exact ⟨h, h⟩

/-- C10 witness: ids `[1,2,3]`, processing `[4,5]`, weights `[6,7,8,9]`,
releases `[0,1,2]` — the dictionaries keep exactly the first two entries. -/
theorem C10_zip_truncation_witness :
    list_to_dict [1, 2, 3] [4, 5] [6, 7, 8, 9] [0, 1, 2] =
      (([1, 2, 3].take ((([1, 2, 3] : List Nat).length.min ([4, 5] : List Nat).length).min
           ((([6, 7, 8, 9] : List Nat)).length.min ([0, 1, 2] : List Nat).length))).zip
         ([4, 5].take ((([1, 2, 3] : List Nat).length.min ([4, 5] : List Nat).length).min
           ((([6, 7, 8, 9] : List Nat)).length.min ([0, 1, 2] : List Nat).length))),
       ([1, 2, 3].take ((([1, 2, 3] : List Nat).length.min ([4, 5] : List Nat).length).min
           ((([6, 7, 8, 9] : List Nat)).length.min ([0, 1, 2] : List Nat).length))).zip
         ([6, 7, 8, 9].take ((([1, 2, 3] : List Nat).length.min ([4, 5] : List Nat).length).min
           ((([6, 7, 8, 9] : List Nat)).length.min ([0, 1, 2] : List Nat).length))),
       ([1, 2, 3].take ((([1, 2, 3] : List Nat).length.min ([4, 5] : List Nat).length).min
           ((([6, 7, 8, 9] : List Nat)).length.min ([0, 1, 2] : List Nat).length))).zip
         ([0, 1, 2].take ((([1, 2, 3] : List Nat).length.min ([4, 5] : List Nat).length).min
           ((([6, 7, 8, 9] : List Nat)).length.min ([0, 1, 2] : List Nat).length)))) ∧
    make_data [1, 2, 3] [4, 5] [6, 7, 8, 9] [0, 1, 2] =
      (([(1, 4), (2, 5)] : List (Nat × Nat)),
       ([(1, 6), (2, 7)] : List (Nat × Nat)),
       ([(1, 0), (2, 1)] : List (Nat × Nat))) := by
  have h := C10_zip_truncation [1, 2, 3] [4, 5] [6, 7, 8, 9] [0, 1, 2] (by decide)
  exact ⟨h.1, h.2⟩

/-- C4: for equal-length attribute sequences with at least one job and distinct
ids, the constructor's big-M value is `max(r) + sum(p)`. -/
theorem C4_big_m_value (lj lp lw lr : List Nat) (hnd : lj.Nodup) (hne : lj ≠ [])
    (hp : lj.length = lp.length) (hw : lj.length = lw.length)
    (hr : lj.length = lr.length) :
    prodPlanInit lj lp lw lr = Except.ok (listMax lr + lp.sum) := by
  have hmin : (lj.length.min lp.length).min (lw.length.min lr.length) = lj.length := by
    rw [← hp, ← hw, ← hr]
    simp
  have htj : lj.take ((lj.length.min lp.length).min (lw.length.min lr.length)) = lj := by
    rw [hmin]
    simp
  have htp : lp.take ((lj.length.min lp.length).min (lw.length.min lr.length)) = lp := by
    rw [hmin, hp]
    simp
  have htw : lw.take ((lj.length.min lp.length).min (lw.length.min lr.length)) = lw := by
    rw [hmin, hw]
    simp
  have htr : lr.take ((lj.length.min lp.length).min (lw.length.min lr.length)) = lr := by
    rw [hmin, hr]
    simp
  have hdict := list_to_dict_eq_zip lj lp lw lr (by rw [htj]; exact hnd)
  rw [htj, htp, htw, htr] at hdict
  have hvr : pyValues (lj.zip lr) = lr := by
    unfold pyValues
    exact List.map_snd_zip lj lr (le_of_eq hr.symm)
  have hvp : pyValues (lj.zip lp) = lp := by
    unfold pyValues
    exact List.map_snd_zip lj lp (le_of_eq hp.symm)
  have hrne : lr ≠ [] := by
    intro hcon
    apply hne
    have := hr
    rw [hcon] at this
    simpa using List.length_eq_zero.mp this
  unfold prodPlanInit
  rw [hdict]
  simp only [hvr, hvp, max?_eq_listMax lr hrne]

/-- C4 witness: the two-job instance `p = [3, 2]`, `r = [0, 4]` has
big-M `4 + 5 = 9`. -/
theorem C4_big_m_value_witness :
    prodPlanInit [1, 2] [3, 2] [1, 1] [0, 4] =
      Except.ok (listMax [0, 4] + ([3, 2] : List Nat).sum) :=
  C4_big_m_value [1, 2] [3, 2] [1, 1] [0, 4] (by decide) (by decide) rfl rfl rfl

/-- C5 counterexample: construction applied to a malformed input — duplicate
job id `1`, a zero processing time, and mismatched sequence lengths — succeeds
with big-M `6` instead of failing with a `ValidationError`. -/
theorem C5_counterexample :
    prodPlanInit [1, 1, 2] [0, 2] [1, 1] [3, 4] = Except.ok 6 := by
  rfl

/-- C5 amended: instance construction performs no validation at all.  It fails
(with Python `ValueError`, raised by `max()` inside the constructor, before any
solver call) exactly when one of the four attribute sequences is empty; every
other input — mismatched lengths, non-positive processing times, duplicate
ids — is accepted without error. -/
theorem C5_no_validation (lj lp lw lr : List Nat) :
    (prodPlanInit lj lp lw lr = Except.error PyErr.valueError ↔
      (lj = [] ∨ lp = [] ∨ lw = [] ∨ lr = [])) ∧
    (∀ e, prodPlanInit lj lp lw lr = Except.error e → e = PyErr.valueError) := by
  by_cases hz : zip4 lj lp lw lr = []
  · have hd : list_to_dict lj lp lw lr = ([], [], []) := by
      unfold list_to_dict
      rw [hz]
      rfl
    have hres : prodPlanInit lj lp lw lr = Except.error PyErr.valueError := by
      unfold prodPlanInit
      rw [hd]
      rfl
    refine ⟨⟨fun _ => (zip4_eq_nil_iff lj lp lw lr).mp hz, fun _ => hres⟩, ?_⟩
    intro e he
    rw [hres] at he
    exact (Except.error.inj he).symm
  · have hdr : (list_to_dict lj lp lw lr).2.2 ≠ [] := by
      unfold list_to_dict
      exact foldl_dicts_third_ne_nil _ _ (Or.inr hz)
    have hv : pyValues (list_to_dict lj lp lw lr).2.2 ≠ [] := by
      unfold pyValues
      simpa using hdr
    have hres : prodPlanInit lj lp lw lr =
        Except.ok (listMax (pyValues (list_to_dict lj lp lw lr).2.2) +
          (pyValues (list_to_dict lj lp lw lr).1).sum) := by
      simp only [prodPlanInit]
      rw [max?_eq_listMax _ hv]
    refine ⟨⟨fun h => ?_, fun h => ?_⟩, fun e he => ?_⟩
    · rw [hres] at h
      cases h
    · exact absurd ((zip4_eq_nil_iff lj lp lw lr).mpr h) hz
    · rw [hres] at he
      cases he

/-- One job with processing time 1 and release time 1: `big_m = 2`, slots `{1}`. -/
def instWin : Inst := ⟨[1], fun _ => 1, fun _ => 1, fun _ => 1⟩

/-- C3 counterexample: on `instWin` the claimed window `[r[1], horizon - p[1]]`
is `{1}`, but the code's one-start-slot constraint sums over the empty window —
the upper bound of the code's window is `max(times) - p[j] = horizon - p[j] - 1`,
one slot short of the claim. -/
theorem C3_counterexample :
    window3 instWin 1 = [] ∧ specWindow3 instWin 1 = [1] ∧
      window3 instWin 1 ≠ specWindow3 instWin 1 := by
  refine ⟨by decide, by decide, by decide⟩

/-- C3 amended: for every instance whose slot list is nonempty (`big_m ≥ 2`) and
every job `j`, the one-start-slot constraint of the time-indexed model sums
`z[j,t]` exactly over the slots `r[j] ≤ t ≤ horizon - p[j] - 1` (with
`horizon = max(r) + sum(p)`), i.e. the code's window is
`range(r[j], horizon - p[j])` in Python terms. -/
theorem C3_window_bounds (inst : Inst) (j : Nat) (h : 2 ≤ big_m inst) :
    window3 inst j = pyRangeZ (inst.r j : Int) ((big_m inst : Int) - (inst.p j : Int)) :=
  window3_eq inst j h

/-- C3 witness: on `instWin` (`big_m = 2`), the window of job 1 is
`range(1, 2 - 1)`, which is empty. -/
theorem C3_window_bounds_witness :
    window3 instWin 1 =
      pyRangeZ (instWin.r 1 : Int) ((big_m instWin : Int) - (instWin.p 1 : Int)) :=
  C3_window_bounds instWin 1 (by decide)

/-- C7 counterexample: with two jobs of equal decoded start, model_1's
extraction keeps the instance's job-list order `[2, 1]` (Python `sorted` is
stable), not ascending job id; and model_3's extraction returns two-element
`[id, start]` lists sorted by start, not a sequence of bare job ids. -/
theorem C7_counterexample :
    get_job_order1 [2, 1] (fun _ => 0) = [2, 1] ∧
    get_job_order1 [2, 1] (fun _ => 0) ≠ [1, 2] ∧
    get_job_order3 [1, 2] (fun j => if j = 1 then 5 else 1) = [[2, 1], [1, 5]] := by
  refine ⟨by decide, by decide, by decide⟩

/-- C7 amended: when the instance's job list is ascending (as every caller
builds it, `list(range(1, nums + 1))`), model_1's `get_job_order` returns a
permutation of the jobs sorted by decoded start with ties broken by ascending
job id, and model_3's `get_job_order` returns the same ordering as
`[id, start]` pairs rather than bare ids. -/
theorem C7_job_order (jobs : List Nat) (sval : Nat → Nat)
    (hasc : jobs.Pairwise (fun a b => a < b)) :
    (get_job_order1 jobs sval).Perm jobs ∧
    (get_job_order1 jobs sval).Pairwise
      (fun a b => sval a < sval b ∨ (sval a = sval b ∧ a < b)) ∧
    get_job_order3 jobs sval = (get_job_order1 jobs sval).map (fun j => [j, sval j]) := by
  refine ⟨perm_pySortedBy sval jobs,
    pairwise_pySortedBy sval (fun a b => a < b) jobs hasc, ?_⟩
  unfold get_job_order3 get_job_order1
  exact pySortedBy_map (fun j => [j, sval j]) sval (fun a => a.getD 1 0)
    (fun a => rfl) jobs

/-- C7 witness: three ascending jobs with starts `7 - j`. -/
theorem C7_job_order_witness :
    (get_job_order1 [1, 2, 3] (fun j => 7 - j)).Perm [1, 2, 3] ∧
    (get_job_order1 [1, 2, 3] (fun j => 7 - j)).Pairwise
      (fun a b => 7 - a < 7 - b ∨ (7 - a = 7 - b ∧ a < b)) ∧
    get_job_order3 [1, 2, 3] (fun j => 7 - j) =
      (get_job_order1 [1, 2, 3] (fun j => 7 - j)).map (fun j => [j, 7 - j]) :=
  C7_job_order [1, 2, 3] (fun j => 7 - j) (by decide)

/-- A run function for the comparison loop that raises on the pair
(formulation 2, job count 1) and returns normally elsewhere. -/
def runFailC8 : Nat → Nat → Except Unit Nat := fun m i =>
  if m = 2 ∧ i = 1 then Except.error () else Except.ok (m * 100 + i)

/-- A run function for the comparison loop that always returns a result. -/
def runOkC8 : Nat → Nat → Except Unit Nat := fun m i => Except.ok (m * 100 + i)

/-- C8 counterexample: when the run for pair (2, 1) raises, the loop of
src/exp.py stops: only the row for (1, 1) is recorded and none of the 28
later pairs — including (3, 1) — is run, because the loop body has no
`try`/`except`. -/
theorem C8_counterexample :
    expRows runFailC8 expPairs = ([(1, 1, 101)], some ()) := by
  rfl

/-- C8 amended: a run that returns a result — in particular one whose solver
status is Infeasible or Unbounded, which `main` returns as an ordinary status
string — is recorded as a row and the loop continues with every remaining
pair; but a run that raises an exception (a solver Error) aborts the remaining
runs. -/
theorem C8_loop_records_all {ε α : Type} (run : Nat → Nat → Except ε α)
    (pairs : List (Nat × Nat))
    (h : ∀ pr ∈ pairs, ∃ a, run pr.1 pr.2 = Except.ok a) :
    (expRows run pairs).2 = none ∧
    (expRows run pairs).1.map (fun row => (row.1, row.2.1)) = pairs := by
  induction pairs with
  | nil => exact ⟨rfl, rfl⟩
  | cons pr rest ih =>
    obtain ⟨a, ha⟩ := h pr (List.mem_cons_self pr rest)
    have hrest := ih (fun q hq => h q (List.mem_cons_of_mem pr hq))
    unfold expRows
    rw [ha]
    refine ⟨hrest.1, ?_⟩
    simp only [List.map_cons, hrest.2]

/-- C8 witness: with an always-returning run function, all 30 pairs of the
comparison loop are recorded, in order. -/
theorem C8_loop_records_all_witness :
    (expRows runOkC8 expPairs).2 = none ∧
    (expRows runOkC8 expPairs).1.map (fun row => (row.1, row.2.1)) = expPairs :=
  C8_loop_records_all runOkC8 expPairs (fun pr _ => ⟨pr.1 * 100 + pr.2, rfl⟩)

/-- One job, processing time 1, weight 1, release 0: `big_m = 1`. -/
def instDiag : Inst := ⟨[1], fun _ => 1, fun _ => 1, fun _ => 0⟩

/-- All precedence indicators set to 1; start 0, completion 1. -/
def schedDiagOn : Sched := ⟨fun _ _ => true, fun _ => 0, fun _ => 1⟩

/-- All precedence indicators set to 0; start 0, completion 1. -/
def schedDiagOff : Sched := ⟨fun _ _ => false, fun _ => 0, fun _ => 1⟩

/-- C6 counterexample: on a one-job instance, with start/completion values
satisfying constraints 1 and 2, setting the diagonal indicator `x[1,1] = 1`
violates the `j = k` instance of the big-M constraint — the diagonal is not
satisfiable either way. -/
theorem C6_counterexample :
    schedDiagOn.c 1 = schedDiagOn.s 1 + instDiag.p 1 ∧
    instDiag.r 1 ≤ schedDiagOn.s 1 ∧
    ¬ bigMCons instDiag schedDiagOn 1 1 :=
  ⟨rfl, by decide, by decide⟩

/-- C6 amended: for every job `j` of an instance with positive processing
times, the diagonal indicator `x[j,j]` is constrained only by the `j = k`
instance of the big-M constraint, and under constraint 1 that instance holds
exactly when `x[j,j] = 0`: the big-M constraint forces the diagonal to 0 (and
with `x[j,j] = 0` it is always satisfied, so the optimal objective over `S`
and `C` is unaffected). -/
theorem C6_diagonal_forced (inst : Inst) (σ : Sched) (j : Nat)
    (hj : j ∈ inst.jobs) (hp : ∀ i ∈ inst.jobs, 1 ≤ inst.p i)
    (hc : σ.c j = σ.s j + inst.p j) :
    (bigMCons inst σ j j ↔ σ.x j j = false) := by
  have hsum : inst.p j ≤ (inst.jobs.map inst.p).sum :=
    List.single_le_sum (fun x _ => Nat.zero_le x) _ (List.mem_map_of_mem inst.p hj)
  have hpM : inst.p j ≤ big_m inst := le_trans hsum (Nat.le_add_left _ _)
  have hp1 : 1 ≤ inst.p j := hp j hj
  unfold bigMCons xv
  cases hx : σ.x j j with
  | false =>
    simp only [hx, Bool.false_eq_true, if_false, iff_true, sub_zero, mul_one]
    rw [hc]
    push_cast
    omega
  | true =>
    simp only [hx, if_true, Bool.true_eq_false, iff_false, not_le, sub_self, mul_zero,
      add_zero]
    rw [hc]
    push_cast
    omega

/-- C6 witness: on the one-job instance with `x[1,1] = 0`, the diagonal
constraint is satisfied, matching the equivalence. -/
theorem C6_diagonal_forced_witness :
    (bigMCons instDiag schedDiagOff 1 1 ↔ schedDiagOff.x 1 1 = false) :=
  C6_diagonal_forced instDiag schedDiagOff 1 (by decide) (by decide) rfl

/-- Two jobs with unit processing times; job 1 released at 0, job 2 at 1:
`big_m = 3`, slots `{1, 2}`, and job 1's window starts at slot 0. -/
def instKey : Inst := ⟨[1, 2], fun _ => 1, fun _ => 1, fun j => if j = 1 then 0 else 1⟩

/-- One job with processing time 2 released at 0: `big_m = 2`, slots `{1}`,
and job 1's window `range(0, 0)` is empty. -/
def instKeyOk : Inst := ⟨[1], fun _ => 2, fun _ => 1, fun _ => 0⟩

/-- C9 counterexample: `instKeyOk` contains a job with release time 0, yet
building the time-indexed model succeeds (with an empty window for job 1, so
the variable `z[1,0]` is never indexed) — no key-lookup error is raised. -/
theorem C9_counterexample :
    instKeyOk.r 1 = 0 ∧ 1 ∈ instKeyOk.jobs ∧
      buildModel3 instKeyOk = Except.ok [(1, [])] :=
  ⟨rfl, by decide, by rfl⟩

/-- C9 amended: building the time-indexed model fails with a `KeyError` (from
indexing a start variable `z[j,t]` at a slot `t` outside `times`, in
particular `z[j,0]`) for every instance that has a job `j` with release time 0
whose window is nonempty, i.e. `p[j] < big_m`; when the window of every
zero-release job is empty, no lookup of a missing key happens. -/
theorem C9_keyerror_on_zero_release (inst : Inst) (j : Nat) (hj : j ∈ inst.jobs)
    (hr : inst.r j = 0) (hp1 : 1 ≤ inst.p j) (hpM : inst.p j < big_m inst) :
    ∃ k t, buildModel3 inst = Except.error (PyErr.keyError k t) := by
  have hM2 : 2 ≤ big_m inst := by omega
  have hjobs : inst.jobs ≠ [] := by
    intro hcon
    rw [hcon] at hj
    cases hj
  have htne : times3 inst ≠ [] := by
    rw [Ne, times3, pyRangeZ_eq_nil_iff]
    omega
  have h0win : (0 : Int) ∈ window3 inst j := by
    rw [window3_eq inst j hM2, mem_pyRangeZ, hr]
    omega
  have h0nt : (0 : Int) ∉ times3 inst := by
    rw [times3, mem_pyRangeZ]
    omega
  have hfind : ((window3 inst j).find? (fun t => ¬ (times3 inst).contains t)).isSome := by
    rw [List.find?_isSome]
    refine ⟨0, h0win, ?_⟩
    simp [h0nt]
  obtain ⟨t0, ht0⟩ := Option.isSome_iff_exists.mp hfind
  have hcheck : checkJob inst j = some (j, t0) := by
    unfold checkJob
    rw [ht0]
    rfl
  have hSome : (inst.jobs.findSome? (checkJob inst)).isSome := by
    by_contra hnone
    rw [Option.not_isSome_iff_eq_none, List.findSome?_eq_none_iff] at hnone
    have hj2 := hnone j hj
    rw [hcheck] at hj2
    cases hj2
  obtain ⟨jt, hjt⟩ := Option.isSome_iff_exists.mp hSome
  unfold buildModel3
  rw [if_neg hjobs, if_neg htne, hjt]
  exact ⟨jt.1, jt.2, rfl⟩

/-- C9 witness: on `instKey` (job 1 released at 0, `big_m = 3`), building the
time-indexed model raises a `KeyError`. -/
theorem C9_keyerror_on_zero_release_witness :
    ∃ k t, buildModel3 instKey = Except.error (PyErr.keyError k t) :=
  C9_keyerror_on_zero_release instKey 1 (by decide) rfl (by decide) (by decide)

/-- Two jobs with processing time 2, weight 1, release 1: `big_m = 5`,
slots `{1, 2, 3, 4}`, each job's window `{1, 2}`. -/
def instShift : Inst := ⟨[1, 2], fun _ => 2, fun _ => 1, fun _ => 1⟩

/-- Both jobs start at slot 1. -/
def zShiftA : Nat → Int → Bool := fun _ t => t = 1

/-- Job 1 starts at slot 2, job 2 at slot 1. -/
def zShiftB : Nat → Int → Bool := fun j t => (j = 1 ∧ t = 2) ∨ (j = 2 ∧ t = 1)

/-- C2 counterexample: on `instShift` there is no single additive constant `c`
relating the time-indexed objective `sum_j w[j] * p[j] * start[j]` to the
weighted completion sum `sum_j w[j] * C[j]`: two one-slot-per-job assignments
give offsets `4 - 6 = -2` and `6 - 7 = -1`. -/
theorem C2_counterexample :
    ¬ ∃ c : Int, ∀ z : Nat → Int → Bool, SelectsOne instShift z →
      obj3 instShift z = wcSum instShift z + c := by
  rintro ⟨c, h⟩
  have ha := h zShiftA (by decide)
  have hb := h zShiftB (by decide)
  rw [show obj3 instShift zShiftA = 4 from by decide,
    show wcSum instShift zShiftA = 6 from by decide] at ha
  rw [show obj3 instShift zShiftB = 6 from by decide,
    show wcSum instShift zShiftB = 7 from by decide] at hb
  omega

lemma list_sum_split (f g h : Nat → Int) (l : List Nat)
    (hfg : ∀ x ∈ l, f x = g x + h x) :
    (l.map f).sum = (l.map g).sum + (l.map h).sum := by
  induction l with
  | nil => simp
  | cons a l ih =>
    simp only [List.map_cons, List.sum_cons]
    rw [hfg a (List.mem_cons_self a l), ih (fun x hx => hfg x (List.mem_cons_of_mem a hx))]
    ring

/-- C2 amended: for every instance there is a single additive constant `c`
(namely `-sum_j w[j] * p[j]^2`) such that for every assignment selecting one
start slot per job, the time-indexed objective equals
`sum_j w[j] * p[j] * C[j] + c` — weight times *processing time* times
completion, not weight times completion. -/
theorem C2_objective_shift (inst : Inst) :
    ∃ c : Int, ∀ z : Nat → Int → Bool, SelectsOne inst z →
      obj3 inst z =
        (inst.jobs.map (fun j =>
          (inst.w j : Int) * (inst.p j : Int) * (start3 inst z j + (inst.p j : Int)))).sum
        + c := by
  refine ⟨-(inst.jobs.map (fun j =>
    (inst.w j : Int) * (inst.p j : Int) * (inst.p j : Int))).sum, ?_⟩
  intro z _
  unfold obj3
  rw [list_sum_split
    (fun j => (inst.w j : Int) * (inst.p j : Int) * (start3 inst z j + (inst.p j : Int)))
    (fun j => (inst.w j : Int) * (start3 inst z j * (inst.p j : Int)))
    (fun j => (inst.w j : Int) * (inst.p j : Int) * (inst.p j : Int))
    inst.jobs (fun x _ => by ring)]
  ring

/-- C2 witness: the amended relation instantiated on `instShift`. -/
theorem C2_objective_shift_witness :
    ∃ c : Int, ∀ z : Nat → Int → Bool, SelectsOne instShift z →
      obj3 instShift z =
        (instShift.jobs.map (fun j =>
          (instShift.w j : Int) * (instShift.p j : Int) *
            (start3 instShift z j + (instShift.p j : Int)))).sum
        + c :=
  C2_objective_shift instShift

/-- Two unit jobs, unit weights, job 1 released at 5, job 2 at 1: `big_m = 7`.
The real schedule minimizing weighted completion is unique: job 2 at 1,
job 1 at 5. -/
def instDiverge : Inst :=
  ⟨[1, 2], fun _ => 1, fun _ => 1, fun j => if j = 1 then 5 else 1⟩

/-- Disjunctive-model optimum on `instDiverge`: job 2 before job 1. -/
def schedOpt1 : Sched :=
  ⟨fun j k => j = 2 ∧ k = 1, fun j => if j = 1 then 5 else 1,
   fun j => if j = 1 then 6 else 2⟩

/-- Order-model optimum on `instDiverge`: indicator `x[1,2] = 1`, starts 5
and 2. -/
def schedOpt4 : Sched :=
  ⟨fun j k => j = 1 ∧ k = 2, fun j => if j = 1 then 5 else 2,
   fun j => if j = 1 then 6 else 3⟩

/-- Time-indexed optimum on `instDiverge`: job 1 starts at slot 5, job 2 at
slot 1. -/
def zOpt3 : Nat → Int → Bool := fun j t => (j = 1 ∧ t = 5) ∨ (j = 2 ∧ t = 1)

lemma model1_lower_instDiverge (σ : Sched) (h : model1Feasible instDiverge σ) :
    8 ≤ objWC instDiverge σ := by
  obtain ⟨h1, h2, _, _⟩ := h
  have e1 := h1 1 (by decide)
  have e2 := h1 2 (by decide)
  have r1 := h2 1 (by decide)
  have r2 := h2 2 (by decide)
  norm_num [instDiverge] at e1 e2 r1 r2
  simp only [objWC, instDiverge, List.map_cons, List.map_nil, List.sum_cons,
    List.sum_nil]
  push_cast
  omega

lemma model3_lower_instDiverge (z : Nat → Int → Bool)
    (h : model3Feasible instDiverge z) : 6 ≤ obj3 instDiverge z := by
  obtain ⟨h1, _⟩ := h
  have hw1 := h1 1 (by decide)
  have hw2 := h1 2 (by decide)
  rw [show window3 instDiverge 1 = [5] from by decide] at hw1
  rw [show window3 instDiverge 2 = [1, 2, 3, 4, 5] from by decide] at hw2
  simp only [List.map_cons, List.map_nil, List.sum_cons, List.sum_nil,
    add_zero] at hw1 hw2
  have hb : ∀ j t, 0 ≤ zI z j t ∧ zI z j t ≤ 1 := by
    intro j t
    unfold zI
    by_cases hz : z j t <;> simp [hz]
  have b1 := hb 1 1
  have b2 := hb 1 2
  have b3 := hb 1 3
  have b4 := hb 1 4
  have b5 := hb 1 5
  have b6 := hb 1 6
  have c1 := hb 2 1
  have c2 := hb 2 2
  have c3 := hb 2 3
  have c4 := hb 2 4
  have c5 := hb 2 5
  have c6 := hb 2 6
  unfold obj3 start3
  rw [show times3 instDiverge = [1, 2, 3, 4, 5, 6] from by decide,
    show instDiverge.jobs = [1, 2] from rfl]
  simp only [List.map_cons, List.map_nil, List.sum_cons, List.sum_nil]
  norm_num [instDiverge]
  omega

lemma model4_lower_instDiverge (σ : Sched) (h : model4Feasible instDiverge σ) :
    9 ≤ objWC instDiverge σ := by
  obtain ⟨h1, h2, h3, h4, h5⟩ := h
  have e1 := h1 1 (by decide)
  have e2 := h1 2 (by decide)
  have r1 := h2 1 (by decide)
  have r2 := h2 2 (by decide)
  norm_num [instDiverge] at e1 e2 r1 r2
  have exc := h4 1 (by decide) 2 (by decide) (by decide)
  have t11 := h5 1 (by decide) 1 (by decide) 1 (by decide)
  have t22 := h5 2 (by decide) 2 (by decide) 2 (by decide)
  have oc12 := h3 1 (by decide) 2 (by decide)
  have oc21 := h3 2 (by decide) 1 (by decide)
  unfold orderCons at oc12 oc21
  norm_num [instDiverge] at oc12 oc21
  have hxb : ∀ j k, 0 ≤ xv σ j k ∧ xv σ j k ≤ 1 := by
    intro j k
    unfold xv
    by_cases hx : σ.x j k <;> simp [hx]
  have x11 := hxb 1 1
  have x12 := hxb 1 2
  have x21 := hxb 2 1
  have x22 := hxb 2 2
  simp only [objWC, instDiverge, List.map_cons, List.map_nil, List.sum_cons,
    List.sum_nil]
  push_cast
  omega

/-- C1: on `instDiverge` — whose real weighted-completion optimum is the
unique schedule (job 2 at 1, job 1 at 5) — all three formulations are feasible
and bounded, but their optimal objective values differ pairwise: the
disjunctive model attains 8, the time-indexed model 6 (its objective
multiplies the start slot by `p[j]` and omits the completion offset), and the
order-transitivity model 9 (its constraint 3 uses coefficient `p[j]` where its
docstring says `p[i]`, so it admits overlapping schedules and over-constrains
others).  The claim that all three yield the same objective value fails. -/
theorem C1_objective_divergence :
    IsOptimalValue (model1Feasible instDiverge) (objWC instDiverge) 8 ∧
    IsOptimalValue (model3Feasible instDiverge) (obj3 instDiverge) 6 ∧
    IsOptimalValue (model4Feasible instDiverge) (objWC instDiverge) 9 :=
  ⟨⟨⟨schedOpt1, by decide, by decide⟩, model1_lower_instDiverge⟩,
   ⟨⟨zOpt3, by decide, by decide⟩, model3_lower_instDiverge⟩,
   ⟨⟨schedOpt4, by decide, by decide⟩, model4_lower_instDiverge⟩⟩
